import Mathlib

/-
  Verification development for the `websub` repository, a WebSub
  (PubSubHubbub) subscriber.  The repository holds two generations of the
  implementation:

  * the current Deno module (`mod.ts`, `server.ts`, `crypto.ts`,
    `events.ts`), exported as the package entry point;
  * the legacy Node implementations (`src/index.ts` with axios/cheerio,
    `src/index.js` and the older TypeScript variant with node-fetch).

  The definitions below are shallow embeddings of those sources.  HMAC
  itself and the external parsers (HTTP Link header parsing, cheerio
  element queries) are outside the repository; they are passed in as
  explicit parameters, exactly at the interfaces the source code calls
  them through.
-/

namespace WebSub

/-- JavaScript falsy test for an optional string: `null`/`undefined` or
the empty string.  This is the `!x` check the handlers perform on query
parameters and headers. -/
def falsyOpt : Option String → Bool
  | none => true
  | some s => s = ""

/-- UTF-8 encoding of one character (code point to bytes). -/
def utf8Char (c : Char) : List Nat :=
  let n := c.toNat
  if n < 0x80 then [n]
  else if n < 0x800 then [0xC0 + n / 0x40, 0x80 + n % 0x40]
  else if n < 0x10000 then
    [0xE0 + n / 0x1000, 0x80 + n / 0x40 % 0x40, 0x80 + n % 0x40]
  else
    [0xF0 + n / 0x40000, 0x80 + n / 0x1000 % 0x40,
     0x80 + n / 0x40 % 0x40, 0x80 + n % 0x40]

/-- UTF-8 encoding of a string, as a list of byte values.  Models
`new TextEncoder().encode(s)` in `crypto.ts` and the `utf8` encoding
argument of the Node `createHmac` calls. -/
def utf8Encode (s : String) : List Nat :=
  (s.data.map utf8Char).flatten

/-- Lower-case hexadecimal digit for a value below 16. -/
def hexDigit (n : Nat) : Char :=
  if n < 10 then Char.ofNat (48 + n) else Char.ofNat (87 + n)

/-- Lower-case hexadecimal rendering of a byte list.  Models
`encodeHex` from `@std/encoding/hex` (used in `server.ts`) and the
`digest('hex')` output of the Node crypto API. -/
def encodeHex (bytes : List Nat) : String :=
  String.mk (bytes.map (fun b => [hexDigit (b / 16 % 16), hexDigit (b % 16)])).flatten

/-- Value of a leading run of decimal digits; `none` when there is no
digit (the NaN case of `Number.parseInt`). -/
def digitsVal (cs : List Char) : Option Nat :=
  let ds := cs.takeWhile Char.isDigit
  if ds.isEmpty then none
  else some (ds.foldl (fun acc c => acc * 10 + (c.toNat - 48)) 0)

/-- Model of `Number.parseInt(s, 10)`: optional sign then the longest
digit prefix; `none` stands for NaN. -/
def parseInt10 (s : String) : Option Int :=
  match s.data.dropWhile Char.isWhitespace with
  | '-' :: rest => (digitsVal rest).map (fun n => -(n : Int))
  | '+' :: rest => (digitsVal rest).map (fun n => (n : Int))
  | cs => (digitsVal cs).map (fun n => (n : Int))

/-- The upper-case algorithm identifiers recognized by `crypto.ts`
(`HMAC_ALGORITHM_U`). -/
def HMAC_ALGORITHM_U : List String := ["SHA-1", "SHA-256", "SHA-384", "SHA-512"]

/-- The lower-case wire spellings recognized by `crypto.ts`
(`HMAC_ALGORITHM_L`). -/
def HMAC_ALGORITHM_L : List String := ["sha1", "sha256", "sha384", "sha512"]

/-- `hmacAlgorithm` from `crypto.ts`: pass upper-case identifiers
through, map the four lower-case wire spellings to their canonical
form, and throw `invalid hmac algorithm` otherwise.  The thrown error
is modelled as `Except.error`. -/
def hmacAlgorithm (algorithm : String) : Except String String :=
  if HMAC_ALGORITHM_U.contains algorithm then Except.ok algorithm
  else if algorithm = "sha1" then Except.ok "SHA-1"
  else if algorithm = "sha256" then Except.ok "SHA-256"
  else if algorithm = "sha384" then Except.ok "SHA-384"
  else if algorithm = "sha512" then Except.ok "SHA-512"
  else Except.error ("invalid hmac algorithm: " ++ algorithm)

/-- `cryptoKey` from `crypto.ts`: validate the algorithm via
`hmacAlgorithm`, then import the raw UTF-8 bytes of `secret` as the
HMAC key.  The result carries the canonical hash name and the key
material handed to `crypto.subtle.importKey`. -/
def cryptoKey (algorithm secret : String) : Except String (String × List Nat) :=
  (hmacAlgorithm algorithm).map (fun alg => (alg, utf8Encode secret))

/-- HTTP response as produced by the callback handler: a status code
and an optional body string (`new Response(body, { status })`). -/
structure Response where
  status : Nat
  body : Option String
  deriving DecidableEq, Repr

/-- Events dispatched by the Deno `WebSub` class (`events.ts`).  The
subscribe lease is the `Number.parseInt` result (`none` models NaN). -/
inductive Event where
  | denied (hub topic : String)
  | subscribeEv (hub topic : String) (lease : Option Int)
  | unsubscribeEv (hub topic : String)
  | feed (hub topic : String) (body : List Nat)
  deriving DecidableEq, Repr

/-- JavaScript `Set.prototype.add`: append the element unless already
present (insertion order preserved, no duplicates). -/
def setAdd (s : List String) (x : String) : List String :=
  if x ∈ s then s else s ++ [x]

/-- JavaScript `Set.prototype.delete`: remove every occurrence (a set
holds at most one). -/
def setDelete (s : List String) (x : String) : List String :=
  s.filter (fun y => y ≠ x)

/-- Mutable state of the Deno `WebSub` class: the `#pending` and
`#active` topic sets, modelled as duplicate-free lists in insertion
order as JavaScript `Set` maintains them. -/
structure State where
  pending : List String
  active : List String
  deriving DecidableEq, Repr

/-- The GET branch of `WebSub.handler` in `server.ts`: hub verification
requests.  Query parameters arrive as optional strings exactly as
`URLSearchParams.get` returns them.  The `throw new Error("lease not
specified")` is modelled as `Except.error`. -/
def handleGet (st : State) (hub topic mode challenge lease : Option String) :
    Except String (Response × List Event × State) :=
  match hub, topic, mode, challenge with
  | some hubS, some topicS, some modeS, some chalS =>
    if hubS = "" ∨ topicS = "" ∨ modeS = "" ∨ chalS = "" then
      Except.ok (⟨400, none⟩, [], st)
    else if topicS ∉ st.pending then
      Except.ok (⟨404, none⟩, [], st)
    else
      let st1 : State := { st with pending := setDelete st.pending topicS }
      if modeS = "denied" then
        Except.ok (⟨200, some chalS⟩, [Event.denied hubS topicS], st1)
      else if modeS = "subscribe" then
        match lease with
        | none => Except.error "lease not specified"
        | some leaseS =>
          if leaseS = "" then Except.error "lease not specified"
          else
            let st2 : State := { st1 with active := setAdd st1.active topicS }
            Except.ok (⟨200, some chalS⟩,
              [Event.subscribeEv hubS topicS (parseInt10 leaseS)], st2)
      else if modeS = "unsubscribe" then
        let st2 : State := { st1 with active := setDelete st1.active topicS }
        Except.ok (⟨200, some chalS⟩, [Event.unsubscribeEv hubS topicS], st2)
      else
        Except.ok (⟨403, none⟩, [], st1)
  | _, _, _, _ => Except.ok (⟨400, none⟩, [], st)

/-- JavaScript `String.prototype.split` with a one-character separator,
over the character list. -/
def splitChars (sep : Char) : List Char → List (List Char)
  | [] => [[]]
  | c :: rest =>
    match splitChars sep rest with
    | [] => [[]]
    | h :: t => if c = sep then [] :: h :: t else (c :: h) :: t

/-- The `x-hub-signature` header split in the POST branch of
`server.ts`: `split("=")`, destructure the first two parts, and treat a
missing or empty half as failure (the 403 path). -/
def parseSigHeader (s : String) : Option (String × String) :=
  let parts := (splitChars '=' s.data).map String.mk
  match parts[0]?, parts[1]? with
  | some a, some g => if a = "" ∨ g = "" then none else some (a, g)
  | _, _ => none

/-- The POST branch of `WebSub.handler` in `server.ts`: push delivery
verification.  `h` is the HMAC oracle standing for
`crypto.subtle.sign("HMAC", key, body)`, taking the canonical hash
name, the key material and the message bytes.  `body = none` models a
null request body. -/
def handlePost (h : String → List Nat → List Nat → List Nat) (secret : String)
    (hub topic sigHeader : Option String) (body : Option (List Nat)) :
    Except String (Response × List Event) :=
  match body with
  | none => Except.ok (⟨400, none⟩, [])
  | some bodyBytes =>
    if falsyOpt hub ∨ falsyOpt topic then Except.ok (⟨400, none⟩, [])
    else if falsyOpt sigHeader then Except.ok (⟨400, none⟩, [])
    else
      match parseSigHeader (sigHeader.getD "") with
      | none => Except.ok (⟨403, none⟩, [])
      | some (algS, sigS) =>
        match cryptoKey algS secret with
        | Except.error e => Except.error e
        | Except.ok (alg, keyBytes) =>
          let signed := h alg keyBytes bodyBytes
          if sigS = encodeHex signed then
            Except.ok (⟨204, none⟩,
              [Event.feed (hub.getD "") (topic.getD "") bodyBytes])
          else
            Except.ok (⟨202, none⟩, [])

/-- Handshake mode, `"subscribe" | "unsubscribe"` in the source. -/
inductive Mode where
  | subscribeMode
  | unsubscribeMode
  deriving DecidableEq, Repr

/-- Wire spelling of a handshake mode. -/
def modeStr : Mode → String
  | Mode.subscribeMode => "subscribe"
  | Mode.unsubscribeMode => "unsubscribe"

/-- Callback URL built by the private handshake method of `server.ts`:
the public URL with `hub` and `topic` search parameters appended.  The
percent-encoding applied by the URL class is not modelled; the claims
under study do not depend on it. -/
def callbackUrl (publicUrl hub topic : String) : String :=
  publicUrl ++ "?hub=" ++ hub ++ "&topic=" ++ topic

/-- The form body that the private handshake method (`#renameme`) of
`server.ts` POSTs to the hub, as an ordered field list.  Note that
`hub.secret` is the raw process secret and `hub.lease_seconds` is set
only in subscribe mode when a lease was given. -/
def renamemeForm (publicUrl secret : String) (mode : Mode) (hub topic : String)
    (lease : Option Nat) : List (String × String) :=
  let base := [("hub.verify", "async"), ("hub.mode", modeStr mode),
    ("hub.topic", topic), ("hub.secret", secret),
    ("hub.callback", callbackUrl publicUrl hub topic)]
  match mode, lease with
  | Mode.subscribeMode, some l => base ++ [("hub.lease_seconds", toString l)]
  | _, _ => base

/-- Lookup of a form field by name (first occurrence). -/
def formGet (form : List (String × String)) (key : String) : Option String :=
  (form.find? (fun p => p.1 = key)).map Prod.snd

/-- Events produced by `#renameme` in `server.ts` after the hub answers
the handshake POST with the given status: the response is never
inspected, so no event is produced for any status. -/
def renamemeEvents (_respStatus : Nat) : List Event :=
  []

/-- The outbound handshake request: hub URL and form body. -/
structure HandshakeRequest where
  hub : String
  form : List (String × String)
  deriving DecidableEq, Repr

/-- Observable actions of `subscribe`/`unsubscribe` in `server.ts`, in
execution order: the discovery fetch, the `#pending` mutation, and the
handshake POST to the hub. -/
inductive Action where
  | discoverFetch (url : String)
  | pendingAdd (topic : String)
  | pendingRemove (topic : String)
  | hubPost (req : HandshakeRequest)
  deriving DecidableEq, Repr

/-- Result of the private `#discover` of `server.ts` and `_discover` of
the legacy `src/index.ts`. -/
structure DiscoveryResult where
  hub : String
  topic : String
  deriving DecidableEq, Repr

/-- `WebSub.subscribe` from `server.ts`.  The discovery outcome (an
external fetch plus header parsing) is passed in as `disc`; a discovery
throw propagates out of the call.  Returns the ordered action trace,
the updated state and the call outcome. -/
def subscribe (st : State) (publicUrl secret url : String) (lease : Option Nat)
    (force : Bool) (disc : Except String DiscoveryResult) :
    List Action × State × Except String Unit :=
  match disc with
  | Except.error e => ([Action.discoverFetch url], st, Except.error e)
  | Except.ok d =>
    let topic := if force then url else d.topic
    ([Action.discoverFetch url, Action.pendingAdd topic,
      Action.hubPost ⟨d.hub, renamemeForm publicUrl secret Mode.subscribeMode d.hub topic lease⟩],
     { st with pending := setAdd st.pending topic }, Except.ok ())

/-- `WebSub.unsubscribe` from `server.ts`: same shape as `subscribe`
but the topic is removed from `#pending` and no lease field is sent. -/
def unsubscribe (st : State) (publicUrl secret url : String) (force : Bool)
    (disc : Except String DiscoveryResult) :
    List Action × State × Except String Unit :=
  match disc with
  | Except.error e => ([Action.discoverFetch url], st, Except.error e)
  | Except.ok d =>
    let topic := if force then url else d.topic
    ([Action.discoverFetch url, Action.pendingRemove topic,
      Action.hubPost ⟨d.hub, renamemeForm publicUrl secret Mode.unsubscribeMode d.hub topic none⟩],
     { st with pending := setDelete st.pending topic }, Except.ok ())

/-- True when the action is a `#pending` mutation. -/
def isPendingMutation : Action → Bool
  | Action.pendingAdd _ => true
  | Action.pendingRemove _ => true
  | _ => false

/-- True when the action is the handshake POST to the hub. -/
def isHubPost : Action → Bool
  | Action.hubPost _ => true
  | _ => false

/-- A pending mutation occurs strictly before the first hub POST of the
trace. -/
def mutationBeforePost (tr : List Action) : Bool :=
  (tr.takeWhile (fun a => !(isHubPost a))).any isPendingMutation

/-- One entry of a parsed HTTP `Link` header, as consumed by
`#discover` in `server.ts` through the `HTTPHeaderLink` library: a
target URI and its `rel` parameter. -/
structure LinkEntry where
  target : String
  rel : String
  deriving DecidableEq, Repr

/-- Body-level link data available to the legacy `_discover` of
`src/index.ts` through cheerio: the first `link[rel=hub]` and
`link[rel=self]` hrefs of the HTML query and of the Atom-namespaced
query.  `none` models an absent element or attribute. -/
structure BodyLinks where
  htmlHub : Option String
  htmlSelf : Option String
  atomHub : Option String
  atomSelf : Option String
  deriving DecidableEq, Repr

/-- The private `#discover` of `server.ts`.  `respOk` is `resp.ok` of
the fetch; `linkHeader` is the parsed `Link` header when present.  The
response content type and body links are in scope (the fetch response
carries them) but the method never consults them: with no `Link`
header it throws `not implemented`. -/
def denoDiscover (url : String) (respOk : Bool) (respStatus : Nat)
    (linkHeader : Option (List LinkEntry)) (_contentType : Option String)
    (_body : BodyLinks) : Except String DiscoveryResult :=
  if ¬ respOk then
    Except.error ("failed to discover \x22" ++ url ++ "\x22: " ++ toString respStatus)
  else
    match linkHeader with
    | some links =>
      match links.filter (fun e => e.rel = "hub") with
      | [] => Except.error "invalid link header"
      | hubEntry :: _ =>
        let topic :=
          match links.filter (fun e => e.rel = "self") with
          | [] => url
          | selfEntry :: _ => selfEntry.target
        Except.ok ⟨hubEntry.target, topic⟩
    | none => Except.error "not implemented"

/-- `String.prototype.startsWith`, over the character lists. -/
def strStartsWith (s p : String) : Bool :=
  p.data.isPrefixOf s.data

/-- The legacy `_discover` of `src/index.ts` (axios + cheerio variant),
after a successful fetch.  `linkHub`/`linkSelf` are the hub and self
targets of the parsed `Link` header when present; `contentType` is the
response content type; `body` carries the cheerio query results. -/
def nodeDiscover (url : String) (linkHub linkSelf : Option String)
    (contentType : Option String) (body : BodyLinks) :
    Except String DiscoveryResult :=
  match linkHub with
  | some hub => Except.ok ⟨hub, linkSelf.getD url⟩
  | none =>
    let isHTML := (contentType.map (fun s => strStartsWith s "text/html")).getD false
    let isXML := (contentType.map (fun s => strStartsWith s "text/xml")).getD false
    if isHTML ∨ isXML then
      match body.htmlHub with
      | some hub => Except.ok ⟨hub, body.htmlSelf.getD url⟩
      | none =>
        match body.atomHub with
        | some hub => Except.ok ⟨hub, body.atomSelf.getD url⟩
        | none => Except.error "Failed to discover hub!"
    else Except.error "Failed to discover hub!"

/-- `_hmacKey` / `_createKey` from the legacy Node implementations: the
per-topic key is the lower-case hex digest of HMAC-SHA1 over the topic
string keyed with the process secret.  `hmacSha1` is the oracle for
`createHmac('sha1', secret)`, taking key bytes then message bytes. -/
def hmacKey (hmacSha1 : List Nat → List Nat → List Nat) (secret topic : String) :
    String :=
  encodeHex (hmacSha1 (utf8Encode secret) (utf8Encode topic))

/-- Outcome of the legacy `_setSubscription` (node-fetch variants in
`src/index.js` and the older TypeScript source): either the resolved
`{secret, callbackURL}` value or a `denied` event. -/
inductive LegacyOutcome where
  | resolved (secret callbackURL : String)
  | deniedEvent (topic errText : String)
  deriving DecidableEq, Repr

/-- Response handling of the legacy `_setSubscription` after the
handshake POST: a fetch rejection or any status other than 202/204 is
turned into a `denied` event carrying the error or response body; the
function itself never throws. -/
def setSubscriptionRespond (topic secret callbackURL : String)
    (fetchResult : Except String (Nat × String)) : LegacyOutcome :=
  match fetchResult with
  | Except.error e => LegacyOutcome.deniedEvent topic e
  | Except.ok (status, respBody) =>
    if status ≠ 202 ∧ status ≠ 204 then
      LegacyOutcome.deniedEvent topic respBody
    else LegacyOutcome.resolved secret callbackURL

/-- `String.prototype.toLowerCase` restricted to the ASCII range the
hex digests live in, over the character list. -/
def jsToLower (s : String) : String :=
  String.mk (s.data.map Char.toLower)

/-- Signature comparison of the legacy `_parseBody`
(`src/index.ts` line 222): both sides lower-cased before comparing. -/
def legacyDigestValid (digest signature : String) : Bool :=
  jsToLower digest == jsToLower signature

/-- Equality of `Except` values is decidable when both components are;
needed to evaluate handler runs on concrete inputs. -/
instance instDecEqExcept {ε α : Type} [DecidableEq ε] [DecidableEq α] :
    DecidableEq (Except ε α) := fun x y =>
  match x, y with
  | Except.error a, Except.error b =>
    match decEq a b with
    | isTrue h => isTrue (by rw [h])
    | isFalse h => isFalse (by intro hh; injection hh; contradiction)
  | Except.error _, Except.ok _ => isFalse (by intro hh; injection hh)
  | Except.ok _, Except.error _ => isFalse (by intro hh; injection hh)
  | Except.ok a, Except.ok b =>
    match decEq a b with
    | isTrue h => isTrue (by rw [h])
    | isFalse h => isFalse (by intro hh; injection hh; contradiction)

/-- Adding an element makes it a member of the JavaScript set. -/
theorem mem_setAdd_self (s : List String) (x : String) : x ∈ setAdd s x := by
  unfold setAdd
  split
  · assumption
  · simp

/-- Deleting an element removes it from the JavaScript set. -/
theorem not_mem_setDelete_self (s : List String) (x : String) :
    x ∉ setDelete s x := by
  simp [setDelete]

end WebSub

open WebSub

/-- Claim C8: for every subscribe and unsubscribe call, the pending-set
mutation (adding the topic for subscribe, removing it for unsubscribe)
happens before the handshake POST is issued; the trace contains exactly
one handshake POST (no retry), and after subscribe the topic sits in
the pending set, where only a later verification GET can consume it
(no timeout exists in the design). -/
theorem claim_C8_pending_mutation_before_post (st : State)
    (publicUrl secret url : String) (lease : Option Nat) (force : Bool)
    (d : DiscoveryResult) :
    mutationBeforePost (subscribe st publicUrl secret url lease force (Except.ok d)).1 = true ∧
    ((subscribe st publicUrl secret url lease force (Except.ok d)).1.filter isHubPost).length = 1 ∧
    mutationBeforePost (unsubscribe st publicUrl secret url force (Except.ok d)).1 = true ∧
    ((unsubscribe st publicUrl secret url force (Except.ok d)).1.filter isHubPost).length = 1 ∧
    (if force then url else d.topic) ∈
      (subscribe st publicUrl secret url lease force (Except.ok d)).2.1.pending := by
  refine ⟨rfl, rfl, rfl, rfl, ?_⟩
  exact mem_setAdd_self st.pending (if force then url else d.topic)

/-- Claim C10: with `force: true`, subscribe and unsubscribe still run
discovery first and fail when it fails; force only replaces the
discovered topic by the raw url, while the hub is always the discovered
hub. -/
theorem claim_C10_force_still_discovers (st : State) (publicUrl secret url : String)
    (lease : Option Nat) (e : String) (d : DiscoveryResult) :
    subscribe st publicUrl secret url lease true (Except.error e) =
      ([Action.discoverFetch url], st, Except.error e) ∧
    unsubscribe st publicUrl secret url true (Except.error e) =
      ([Action.discoverFetch url], st, Except.error e) ∧
    subscribe st publicUrl secret url lease true (Except.ok d) =
      ([Action.discoverFetch url, Action.pendingAdd url,
        Action.hubPost ⟨d.hub, renamemeForm publicUrl secret Mode.subscribeMode d.hub url lease⟩],
       { st with pending := setAdd st.pending url }, Except.ok ()) ∧
    unsubscribe st publicUrl secret url true (Except.ok d) =
      ([Action.discoverFetch url, Action.pendingRemove url,
        Action.hubPost ⟨d.hub, renamemeForm publicUrl secret Mode.unsubscribeMode d.hub url none⟩],
       { st with pending := setDelete st.pending url }, Except.ok ()) :=
  ⟨rfl, rfl, rfl, rfl⟩

/-- Claim C9: a verification GET whose topic is pending but whose mode
is none of denied/subscribe/unsubscribe answers 403 Forbidden, and the
topic has nevertheless been removed from the pending set before the
mode dispatch, so the error path still consumes the pending entry. -/
theorem claim_C9_unknown_mode_consumes_pending (st : State)
    (hubS T modeS chal : String) (lease : Option String)
    (hmem : T ∈ st.pending) (hhub : hubS ≠ "") (hT : T ≠ "")
    (hmode : modeS ≠ "") (hchal : chal ≠ "")
    (hd : modeS ≠ "denied") (hs : modeS ≠ "subscribe") (hu : modeS ≠ "unsubscribe") :
    handleGet st (some hubS) (some T) (some modeS) (some chal) lease =
      Except.ok (⟨403, none⟩, [], { st with pending := setDelete st.pending T }) ∧
    T ∉ setDelete st.pending T := by
  constructor
  · simp [handleGet, hhub, hT, hmode, hchal, hmem, hd, hs, hu]
  · exact not_mem_setDelete_self st.pending T

/-- Claim C9 witness: a concrete run with mode `other`. -/
theorem claim_C9_witness :
    handleGet ⟨["T"], []⟩ (some "H") (some "T") (some "other") (some "abc") none =
      Except.ok (⟨403, none⟩, [], ⟨[], []⟩) ∧
    "T" ∉ setDelete ["T"] "T" := by
  have h := claim_C9_unknown_mode_consumes_pending ⟨["T"], []⟩ "H" "T" "other" "abc" none
    (by decide) (by decide) (by decide) (by decide) (by decide)
    (by decide) (by decide) (by decide)
  exact ⟨by simpa [setDelete] using h.1, h.2⟩

/-- Claim C2: after subscribe puts topic T in the pending set, a
verification GET for T with all required parameters answers 200 with
the challenge as body and moves T from pending to active, and a second
identical verification GET answers 404: the pending entry is consumed
at most once. -/
theorem claim_C2_verification_consumed_once (st : State)
    (publicUrl secret url hubD T hubS chal leaseS : String) (lease0 : Option Nat)
    (hT : T ≠ "") (hhub : hubS ≠ "") (hchal : chal ≠ "") (hlease : leaseS ≠ "") :
    T ∈ (subscribe st publicUrl secret url lease0 false (Except.ok ⟨hubD, T⟩)).2.1.pending ∧
    handleGet (subscribe st publicUrl secret url lease0 false (Except.ok ⟨hubD, T⟩)).2.1
        (some hubS) (some T) (some "subscribe") (some chal) (some leaseS) =
      Except.ok (⟨200, some chal⟩, [Event.subscribeEv hubS T (parseInt10 leaseS)],
        ⟨setDelete (setAdd st.pending T) T, setAdd st.active T⟩) ∧
    T ∈ setAdd st.active T ∧
    T ∉ setDelete (setAdd st.pending T) T ∧
    handleGet ⟨setDelete (setAdd st.pending T) T, setAdd st.active T⟩
        (some hubS) (some T) (some "subscribe") (some chal) (some leaseS) =
      Except.ok (⟨404, none⟩, [], ⟨setDelete (setAdd st.pending T) T, setAdd st.active T⟩) := by
  refine ⟨mem_setAdd_self st.pending T, ?_, mem_setAdd_self st.active T,
    not_mem_setDelete_self (setAdd st.pending T) T, ?_⟩
  · simp [handleGet, subscribe, hT, hhub, hchal, hlease, mem_setAdd_self]
  · simp [handleGet, hT, hhub, hchal, hlease, not_mem_setDelete_self]

/-- Claim C2 witness: a concrete subscribe-verify-replay run. -/
theorem claim_C2_witness :
    "T" ∈ (subscribe ⟨[], []⟩ "https://cb" "s" "u" none false (Except.ok ⟨"H", "T"⟩)).2.1.pending ∧
    handleGet (subscribe ⟨[], []⟩ "https://cb" "s" "u" none false (Except.ok ⟨"H", "T"⟩)).2.1
        (some "H") (some "T") (some "subscribe") (some "abc") (some "3600") =
      Except.ok (⟨200, some "abc"⟩, [Event.subscribeEv "H" "T" (parseInt10 "3600")],
        ⟨setDelete (setAdd [] "T") "T", setAdd [] "T"⟩) ∧
    "T" ∈ setAdd [] "T" ∧
    "T" ∉ setDelete (setAdd [] "T") "T" ∧
    handleGet ⟨setDelete (setAdd [] "T") "T", setAdd [] "T"⟩
        (some "H") (some "T") (some "subscribe") (some "abc") (some "3600") =
      Except.ok (⟨404, none⟩, [], ⟨setDelete (setAdd [] "T") "T", setAdd [] "T"⟩) :=
  claim_C2_verification_consumed_once ⟨[], []⟩ "https://cb" "s" "u" "H" "T" "H" "abc" "3600" none
    (by decide) (by decide) (by decide) (by decide)

/-- Claim C3: for an inbound push POST with a well-formed signature
header (parseable and with a recognized algorithm), a digest mismatch
answers 202 with no feed event, and a match answers 204 with exactly
one feed event carrying the hub, the topic and the raw body bytes. -/
theorem claim_C3_push_mismatch_202_match_204
    (h : String → List Nat → List Nat → List Nat) (secret hubS topicS sigH algS sigS alg : String)
    (keyB bodyBytes : List Nat)
    (hhub : hubS ≠ "") (htopic : topicS ≠ "") (hsig : sigH ≠ "")
    (hparse : parseSigHeader sigH = some (algS, sigS))
    (hkey : cryptoKey algS secret = Except.ok (alg, keyB)) :
    (sigS ≠ encodeHex (h alg keyB bodyBytes) →
      handlePost h secret (some hubS) (some topicS) (some sigH) (some bodyBytes) =
        Except.ok (⟨202, none⟩, [])) ∧
    (sigS = encodeHex (h alg keyB bodyBytes) →
      handlePost h secret (some hubS) (some topicS) (some sigH) (some bodyBytes) =
        Except.ok (⟨204, none⟩, [Event.feed hubS topicS bodyBytes])) := by
  constructor <;> intro hcmp <;>
    simp [handlePost, falsyOpt, hhub, htopic, hsig, hparse, hkey, hcmp]

/-- Claim C3 witness: one concrete mismatching and one concrete
matching push. -/
theorem claim_C3_witness :
    handlePost (fun _ _ _ => [171]) "s" (some "H") (some "T") (some "sha256=ff") (some [104]) =
      Except.ok (⟨202, none⟩, []) ∧
    handlePost (fun _ _ _ => [171]) "s" (some "H") (some "T") (some "sha256=ab") (some [104]) =
      Except.ok (⟨204, none⟩, [Event.feed "H" "T" [104]]) :=
  ⟨(claim_C3_push_mismatch_202_match_204 (fun _ _ _ => [171]) "s" "H" "T" "sha256=ff"
      "sha256" "ff" "SHA-256" (utf8Encode "s") [104]
      (by decide) (by decide) (by decide) (by decide) (by decide)).1 (by decide),
   (claim_C3_push_mismatch_202_match_204 (fun _ _ _ => [171]) "s" "H" "T" "sha256=ab"
      "sha256" "ab" "SHA-256" (utf8Encode "s") [104]
      (by decide) (by decide) (by decide) (by decide) (by decide)).2 (by decide)⟩

/-- Claim C1 counterexample: the current POST verifier keys the HMAC
with the raw process secret, not with the per-topic derivation.  With
the oracle that returns its key, a push over topic `t` signed with the
raw-secret key (hex `73` = the byte of `s`) is accepted, while the
per-topic derivation of the legacy code (a 40-character hex digest for
any 20-byte HMAC-SHA1 output) yields different key bytes. -/
theorem claim_C1_counterexample :
    handlePost (fun _ key _ => key) "s" (some "H") (some "t") (some "sha1=73") (some [104]) =
      Except.ok (⟨204, none⟩, [Event.feed "H" "t" [104]]) ∧
    utf8Encode "s" = [115] ∧
    utf8Encode (hmacKey (fun _ _ => List.replicate 20 0) "s" "t") ≠ [115] := by
  decide

/-- Claim C1 amended: for every inbound push POST, the HMAC key
material used to verify the signature is the raw UTF-8 bytes of the
process secret — the same value sent verbatim as the `hub.secret` form
field of the outbound handshake — independent of the topic and of the
algorithm the hub used to sign the body. -/
theorem claim_C1_amended_raw_secret_key (algS secret alg : String) (keyB : List Nat)
    (hok : cryptoKey algS secret = Except.ok (alg, keyB))
    (publicUrl hub topic : String) (mode : Mode) (lease : Option Nat) :
    keyB = utf8Encode secret ∧
    formGet (renamemeForm publicUrl secret mode hub topic lease) "hub.secret" = some secret := by
  constructor
  · unfold cryptoKey at hok
    cases hA : hmacAlgorithm algS with
    | error e => rw [hA] at hok; simp [Except.map] at hok
    | ok a =>
      rw [hA] at hok
      simp [Except.map] at hok
      exact hok.2.symm
  · cases mode <;> cases lease <;> rfl

/-- Claim C1 amended witness: key bytes for a concrete secret, and the
handshake form field. -/
theorem claim_C1_witness :
    [115] = utf8Encode "s" ∧
    formGet (renamemeForm "https://cb" "s" Mode.subscribeMode "H" "T" none) "hub.secret" =
      some "s" :=
  claim_C1_amended_raw_secret_key "sha1" "s" "SHA-1" [115] (by decide)
    "https://cb" "H" "T" Mode.subscribeMode none

/-- Claim C4 counterexample: the current server compares the supplied
digest to the computed lower-case hex digest with exact string
equality.  With computed digest `ab`, the supplied digest `AB` — equal
up to letter case — is rejected (202, no feed event) while `ab` is
accepted, refuting case-insensitive comparison. -/
theorem claim_C4_counterexample :
    handlePost (fun _ _ _ => [171]) "s" (some "H") (some "T") (some "sha256=AB") (some [104]) =
      Except.ok (⟨202, none⟩, []) ∧
    handlePost (fun _ _ _ => [171]) "s" (some "H") (some "T") (some "sha256=ab") (some [104]) =
      Except.ok (⟨204, none⟩, [Event.feed "H" "T" [104]]) ∧
    jsToLower "AB" = jsToLower "ab" := by
  decide

/-- Claim C4 amended: the current server compares the supplied digest
case-sensitively to the lower-case hex encoding, so a digest that
differs from the computed one only in letter case is rejected with 202
and no feed event; only the legacy Node comparison, which lower-cases
both sides, accepts it. -/
theorem claim_C4_amended_case_sensitive
    (h : String → List Nat → List Nat → List Nat) (secret hubS topicS sigH algS sigS alg : String)
    (keyB bodyBytes : List Nat)
    (hhub : hubS ≠ "") (htopic : topicS ≠ "") (hsig : sigH ≠ "")
    (hparse : parseSigHeader sigH = some (algS, sigS))
    (hkey : cryptoKey algS secret = Except.ok (alg, keyB))
    (hcase : jsToLower sigS = jsToLower (encodeHex (h alg keyB bodyBytes)))
    (hne : sigS ≠ encodeHex (h alg keyB bodyBytes)) :
    handlePost h secret (some hubS) (some topicS) (some sigH) (some bodyBytes) =
      Except.ok (⟨202, none⟩, []) ∧
    legacyDigestValid (encodeHex (h alg keyB bodyBytes)) sigS = true := by
  constructor
  · simp [handlePost, falsyOpt, hhub, htopic, hsig, hparse, hkey, hne]
  · simp [legacyDigestValid, hcase]

/-- Claim C4 amended witness: computed digest `ab`, supplied digest
`AB`. -/
theorem claim_C4_witness :
    handlePost (fun _ _ _ => [171]) "s" (some "H") (some "T") (some "sha256=AB") (some [104]) =
      Except.ok (⟨202, none⟩, []) ∧
    legacyDigestValid (encodeHex ((fun _ _ _ => [171]) "SHA-256" (utf8Encode "s") [104])) "AB" =
      true :=
  claim_C4_amended_case_sensitive (fun _ _ _ => [171]) "s" "H" "T" "sha256=AB"
    "sha256" "AB" "SHA-256" (utf8Encode "s") [104]
    (by decide) (by decide) (by decide) (by decide) (by decide) (by decide) (by decide)

/-- Claim C5 counterexample: the current handshake implementation never
inspects the response status of the POST to the hub, so a 500 response
produces no denied event at all (nothing is surfaced, against the
claimed denied event); the legacy node-fetch implementation is the
variant that emits the denied event. -/
theorem claim_C5_counterexample :
    renamemeEvents 500 = [] ∧
    Event.denied "H" "T" ∉ renamemeEvents 500 ∧
    setSubscriptionRespond "T" "sec" "cb" (Except.ok (500, "hub says no")) =
      LegacyOutcome.deniedEvent "T" "hub says no" := by
  decide

/-- Claim C5 amended: in the legacy node-fetch implementation a
handshake response with any status other than 202/204, or a rejected
fetch, is surfaced as a denied event carrying the response body (never
a thrown fault — the function is total); the current implementation
ignores the handshake response status entirely, surfacing neither a
denied event nor a fault. -/
theorem claim_C5_amended_denied_event (topic secret cb respBody e : String) (status : Nat)
    (h202 : status ≠ 202) (h204 : status ≠ 204) :
    setSubscriptionRespond topic secret cb (Except.ok (status, respBody)) =
      LegacyOutcome.deniedEvent topic respBody ∧
    setSubscriptionRespond topic secret cb (Except.error e) =
      LegacyOutcome.deniedEvent topic e ∧
    renamemeEvents status = [] := by
  refine ⟨?_, rfl, rfl⟩
  simp [setSubscriptionRespond, h202, h204]

/-- Claim C5 amended witness: a concrete 500 handshake response. -/
theorem claim_C5_witness :
    setSubscriptionRespond "T" "sec" "cb" (Except.ok (500, "nope")) =
      LegacyOutcome.deniedEvent "T" "nope" ∧
    setSubscriptionRespond "T" "sec" "cb" (Except.error "connreset") =
      LegacyOutcome.deniedEvent "T" "connreset" ∧
    renamemeEvents 500 = [] :=
  claim_C5_amended_denied_event "T" "sec" "cb" "nope" "connreset" 500
    (by decide) (by decide)

/-- Claim C6 counterexample: with no Link header, an HTML content type
and a body that does carry a hub link, the current discovery throws
`not implemented` without consulting the body, while the legacy
discovery resolves the hub and topic from the body, refuting the claim
for the current code. -/
theorem claim_C6_counterexample :
    denoDiscover "https://feed.example" true 200 none (some "text/html")
      ⟨some "https://hub.example", some "https://self.example", none, none⟩ =
      Except.error "not implemented" ∧
    nodeDiscover "https://feed.example" none none (some "text/html")
      ⟨some "https://hub.example", some "https://self.example", none, none⟩ =
      Except.ok ⟨"https://hub.example", "https://self.example"⟩ := by
  decide

/-- Claim C6 amended: only the legacy discovery falls back to parsing
the body when the Link header yields no hub and the content type
indicates HTML or XML — HTML `link rel=hub` first, then the Atom
variant, topic from the matching `rel=self` link defaulting to the
original url, and `DiscoveryError` when neither is present; the current
discovery supports only the Link header and fails with `not
implemented` when it is absent, never reading the body. -/
theorem claim_C6_amended_body_discovery_legacy_only (url ct : String)
    (linkSelf : Option String) (bl : BodyLinks) (respStatus : Nat)
    (hct : strStartsWith ct "text/html" = true ∨ strStartsWith ct "text/xml" = true) :
    denoDiscover url true respStatus none (some ct) bl = Except.error "not implemented" ∧
    (∀ hb, bl.htmlHub = some hb →
      nodeDiscover url none linkSelf (some ct) bl = Except.ok ⟨hb, bl.htmlSelf.getD url⟩) ∧
    (∀ ab, bl.htmlHub = none → bl.atomHub = some ab →
      nodeDiscover url none linkSelf (some ct) bl = Except.ok ⟨ab, bl.atomSelf.getD url⟩) ∧
    (bl.htmlHub = none → bl.atomHub = none →
      nodeDiscover url none linkSelf (some ct) bl = Except.error "Failed to discover hub!") := by
  refine ⟨rfl, ?_, ?_, ?_⟩
  · intro hb hhb
    rcases hct with hc | hc <;> simp [nodeDiscover, hhb, hc]
  · intro ab hhb hab
    rcases hct with hc | hc <;> simp [nodeDiscover, hhb, hab, hc]
  · intro hhb hab
    rcases hct with hc | hc <;> simp [nodeDiscover, hhb, hab, hc]

/-- Claim C6 amended witness: a concrete HTML body with hub and self
links, then without any, against both discovery variants. -/
theorem claim_C6_witness :
    denoDiscover "u" true 200 none (some "text/html") ⟨some "H", some "S", none, none⟩ =
      Except.error "not implemented" ∧
    nodeDiscover "u" none none (some "text/html") ⟨some "H", some "S", none, none⟩ =
      Except.ok ⟨"H", "S"⟩ := by
  have h := claim_C6_amended_body_discovery_legacy_only "u" "text/html" none
    ⟨some "H", some "S", none, none⟩ 200 (Or.inl (by decide))
  exact ⟨h.1, h.2.1 "H" rfl⟩

/-- Claim C7 counterexample: an inbound push with the unrecognized
algorithm `md5` makes the handler throw (the error escapes as a
rejected promise to the embedding application) instead of answering
with an HTTP error status, refuting the fail-closed-via-HTTP-status
half of the claim. -/
theorem claim_C7_counterexample :
    handlePost (fun _ _ _ => []) "s" (some "H") (some "T") (some "md5=abcd") (some [104]) =
      Except.error "invalid hmac algorithm: md5" := by
  decide

/-- Claim C7 amended: the algorithm is normalized over exactly the
recognized spellings (the four canonical identifiers and the four
lower-case wire spellings); an unrecognized algorithm fails closed by
throwing `invalid hmac algorithm`, and that error propagates out of
the POST handler to the embedding application rather than being
converted into an HTTP error response. -/
theorem claim_C7_amended_unknown_algorithm_throws
    (h : String → List Nat → List Nat → List Nat)
    (secret hubS topicS sigH s sigS : String) (bodyBytes : List Nat)
    (hU : s ∉ HMAC_ALGORITHM_U) (hL : s ∉ HMAC_ALGORITHM_L)
    (hhub : hubS ≠ "") (htopic : topicS ≠ "") (hsigH : sigH ≠ "")
    (hparse : parseSigHeader sigH = some (s, sigS)) :
    hmacAlgorithm "sha1" = Except.ok "SHA-1" ∧
    hmacAlgorithm "sha256" = Except.ok "SHA-256" ∧
    hmacAlgorithm "sha384" = Except.ok "SHA-384" ∧
    hmacAlgorithm "sha512" = Except.ok "SHA-512" ∧
    hmacAlgorithm "SHA-1" = Except.ok "SHA-1" ∧
    hmacAlgorithm "SHA-256" = Except.ok "SHA-256" ∧
    hmacAlgorithm "SHA-384" = Except.ok "SHA-384" ∧
    hmacAlgorithm "SHA-512" = Except.ok "SHA-512" ∧
    hmacAlgorithm s = Except.error ("invalid hmac algorithm: " ++ s) ∧
    handlePost h secret (some hubS) (some topicS) (some sigH) (some bodyBytes) =
      Except.error ("invalid hmac algorithm: " ++ s) := by
  simp [HMAC_ALGORITHM_U] at hU
  simp [HMAC_ALGORITHM_L] at hL
  obtain ⟨u1, u2, u3, u4⟩ := hU
  obtain ⟨l1, l2, l3, l4⟩ := hL
  have herr : hmacAlgorithm s = Except.error ("invalid hmac algorithm: " ++ s) := by
    simp [hmacAlgorithm, HMAC_ALGORITHM_U, u1, u2, u3, u4, l1, l2, l3, l4]
  refine ⟨by decide, by decide, by decide, by decide, by decide, by decide, by decide, by decide,
    herr, ?_⟩
  simp [handlePost, falsyOpt, hhub, htopic, hsigH, hparse, cryptoKey, herr, Except.map]

/-- Claim C7 amended witness: the concrete unrecognized algorithm
`md5`. -/
theorem claim_C7_witness :
    hmacAlgorithm "sha1" = Except.ok "SHA-1" ∧
    hmacAlgorithm "sha256" = Except.ok "SHA-256" ∧
    hmacAlgorithm "sha384" = Except.ok "SHA-384" ∧
    hmacAlgorithm "sha512" = Except.ok "SHA-512" ∧
    hmacAlgorithm "SHA-1" = Except.ok "SHA-1" ∧
    hmacAlgorithm "SHA-256" = Except.ok "SHA-256" ∧
    hmacAlgorithm "SHA-384" = Except.ok "SHA-384" ∧
    hmacAlgorithm "SHA-512" = Except.ok "SHA-512" ∧
    hmacAlgorithm "md5" = Except.error ("invalid hmac algorithm: " ++ "md5") ∧
    handlePost (fun _ _ _ => []) "s" (some "H") (some "T") (some "md5=abcd") (some [104]) =
      Except.error ("invalid hmac algorithm: " ++ "md5") :=
  claim_C7_amended_unknown_algorithm_throws (fun _ _ _ => []) "s" "H" "T" "md5=abcd"
    "md5" "abcd" [104] (by decide) (by decide) (by decide) (by decide) (by decide) (by decide)
